import Mathlib

/-!
Verification of `validators/pydantic/runner.py`.

The program reads stdin, parses it with `json.loads`, and validates the
resulting value against the pydantic model `StructuralConfig`:

    class StructuralConfig(BaseModel):
        id: UUID
        timestamp: datetime
        temperature: float = Field(ge=-50, le=150)
        pressure: float = Field(ge=800, le=1200)
        mode: str = Field(regex string matching AUTO or MANUAL exactly)

On success it prints a result with ok true and an empty error list; on a
`ValidationError` it prints ok false together with the collected error
descriptors.  JSON decode failures and the `TypeError` raised when a
non-mapping is unpacked with two stars are not caught.

Embedding choices:
* JSON numbers are modelled as rationals.  Every numeric boundary probed by
  the specification (−50, 150, 800, 1200, −50.0001, 150.0001, 1200.001)
  compares against the bounds identically under rational and under IEEE
  double semantics, so the abstraction is sound for the stated properties.
* `json.loads` is Python library code, not part of this repository; its
  outcome is modelled as `Option JSON` (`none` = the raw text is not valid
  JSON, in which case `json.loads` raises and the process dies).
* The pydantic lax validators for `UUID`, `datetime`, `float` and
  constrained `str` are library behaviour as well; they are embedded below
  field by field, following pydantic v2 lax-mode coercion rules.
-/

/-- A parsed JSON value, as produced by `json.loads`.  Python objects become
association lists; for duplicate keys `json.loads` keeps the last binding,
which `getField` reproduces. -/
inductive JSON where
  | null
  | bool (b : Bool)
  | num (q : ℚ)
  | str (s : String)
  | arr (elems : List JSON)
  | obj (kvs : List (String × JSON))

/-- One entry of `ValidationError.errors()`: the field path `loc`, the
machine-readable error kind `type`, and the human-readable `msg`.  (The
actual pydantic dictionaries also carry `input` and `url`; the claims only
concern the three fields kept here.) -/
structure ErrorItem where
  loc : List String
  type : String
  msg : String
deriving DecidableEq, Repr

/-- The record printed by `main`: `{"ok": ..., "errors": [...]}`. -/
structure ValidationResult where
  ok : Bool
  errors : List ErrorItem
deriving DecidableEq, Repr

/-- Dictionary lookup on the parsed object.  `json.loads` builds a `dict`
where a repeated key keeps its last occurrence, hence the reversal. -/
def getField (kvs : List (String × JSON)) (k : String) : Option JSON :=
  kvs.reverse.lookup k

/-- Hexadecimal digit, either case (Python UUID parsing is case-insensitive). -/
def isHexChar (c : Char) : Bool :=
  c.isDigit || ('a' ≤ c && c ≤ 'f') || ('A' ≤ c && c ≤ 'F')

/-- Split a character list on the minus sign, mirroring a split of the UUID
string on the group separator. -/
def splitOnDash : List Char → List (List Char)
  | [] => [[]]
  | '-' :: r => [] :: splitOnDash r
  | c :: r =>
    match splitOnDash r with
    | g :: gs => (c :: g) :: gs
    | [] => [[c]]

/-- Whether a string is accepted for the `id : UUID` field: the canonical
hyphenated 8-4-4-4-12 form or the 32-hex-digit form, hex digits in either
case.  (pydantic also tolerates braces and a urn prefix; no claim probes
those decorated forms.) -/
def isValidUUID (s : String) : Bool :=
  match splitOnDash s.data with
  | [a, b, c, d, e] =>
    a.length == 8 && b.length == 4 && c.length == 4 && d.length == 4 &&
    e.length == 12 && (a ++ b ++ c ++ d ++ e).all isHexChar
  | [a] => a.length == 32 && a.all isHexChar
  | _ => false

/-- Numeric value of a digit list, most significant first. -/
def digitsToNat (cs : List Char) : Nat :=
  cs.foldl (fun a c => a * 10 + (c.toNat - 48)) 0

/-- Read exactly two decimal digits. -/
def read2 : List Char → Option (Nat × List Char)
  | a :: b :: r =>
    if a.isDigit && b.isDigit then some ((a.toNat - 48) * 10 + (b.toNat - 48), r)
    else none
  | _ => none

/-- Read exactly four decimal digits. -/
def read4 : List Char → Option (Nat × List Char)
  | a :: b :: c :: d :: r =>
    if a.isDigit && b.isDigit && c.isDigit && d.isDigit then
      some (digitsToNat [a, b, c, d], r)
    else none
  | _ => none

/-- Consume one expected character. -/
def expectChar (c : Char) : List Char → Option (List Char)
  | x :: r => if x = c then some r else none
  | [] => none

/-- Gregorian leap year. -/
def isLeap (y : Nat) : Bool :=
  (y % 4 == 0 && y % 100 != 0) || y % 400 == 0

/-- Day count of a month, leap years included. -/
def daysInMonth (y m : Nat) : Nat :=
  match m with
  | 2 => if isLeap y then 29 else 28
  | 4 => 30
  | 6 => 30
  | 9 => 30
  | 11 => 30
  | _ => 31

/-- Parse a calendar date `YYYY-MM-DD`, returning the unconsumed suffix. -/
def parseDateCs (cs : List Char) : Option (List Char) := do
  let (y, r) ← read4 cs
  let r ← expectChar '-' r
  let (mo, r) ← read2 r
  let r ← expectChar '-' r
  let (d, r) ← read2 r
  if 1 ≤ mo && mo ≤ 12 && 1 ≤ d && d ≤ daysInMonth y mo then some r else none

/-- Parse the optional `:SS[.fraction]` tail of a time. -/
def parseSeconds : List Char → Option (List Char)
  | ':' :: r => do
    let (s, r2) ← read2 r
    if s ≤ 59 then
      match r2 with
      | '.' :: r3 =>
        if (r3.takeWhile Char.isDigit).isEmpty then none
        else some (r3.dropWhile Char.isDigit)
      | _ => some r2
    else none
  | cs => some cs

/-- Parse a time `HH:MM[:SS[.fraction]]` with the usual bounds. -/
def parseTimeCs (cs : List Char) : Option (List Char) := do
  let (h, r) ← read2 cs
  let r ← expectChar ':' r
  let (mi, r) ← read2 r
  let r ← parseSeconds r
  if h ≤ 23 && mi ≤ 59 then some r else none

/-- Parse an optional timezone `Z`, `z`, `+HH:MM`, `+HHMM` or `+HH`
(likewise with a minus sign). -/
def parseOffset : List Char → Option (List Char)
  | [] => some []
  | 'Z' :: r => some r
  | 'z' :: r => some r
  | c :: r =>
    if c = '+' || c = '-' then
      match read2 r with
      | none => none
      | some (h, r2) =>
        match r2 with
        | ':' :: r3 =>
          match read2 r3 with
          | some (m, r4) => if h ≤ 23 && m ≤ 59 then some r4 else none
          | none => none
        | _ =>
          match read2 r2 with
          | some (m, r4) => if h ≤ 23 && m ≤ 59 then some r4 else none
          | none => if h ≤ 23 then some r2 else none
    else none

/-- Whether a string is accepted for the `timestamp : datetime` field in lax
mode: an ISO-8601 date, optionally followed by `T`, `t` or a space and a
time with optional fractional seconds and optional offset. -/
def isValidDatetime (s : String) : Bool :=
  match parseDateCs s.data with
  | none => false
  | some [] => true
  | some (c :: r) =>
    if c = 'T' || c = 't' || c = ' ' then
      match parseTimeCs r with
      | none => false
      | some r2 =>
        match parseOffset r2 with
        | some r3 => r3.isEmpty
        | none => false
    else false

/-- Decimal string accepted by the lax float coercion: optional sign,
digits with an optional point (at least one digit overall) and an optional
exponent.  Built with `Rat.divInt` so concrete inputs reduce inside the
kernel.  Infinity and NaN spellings are not modelled; no claim involves a
non-finite number. -/
def parseDecimal (s : String) : Option ℚ :=
  let (sgn, cs) :=
    match s.data with
    | '+' :: r => ((1 : Int), r)
    | '-' :: r => ((-1 : Int), r)
    | cs => ((1 : Int), cs)
  let ip := cs.takeWhile Char.isDigit
  let cs := cs.dropWhile Char.isDigit
  let (fp, cs) :=
    match cs with
    | '.' :: r => (r.takeWhile Char.isDigit, r.dropWhile Char.isDigit)
    | _ => ([], cs)
  if ip.isEmpty && fp.isEmpty then none
  else
    let m : Int := sgn * (digitsToNat (ip ++ fp) : Int)
    match cs with
    | [] => some (Rat.divInt m ((10 : Nat) ^ fp.length : Nat))
    | 'e' :: r => parseExponent m fp.length r
    | 'E' :: r => parseExponent m fp.length r
    | _ => none
where
  /-- Apply a decimal exponent suffix to a mantissa given as an integer `m`
  scaled down by `fracLen` decimal places. -/
  parseExponent (m : Int) (fracLen : Nat) (r : List Char) : Option ℚ :=
    let (neg, r) :=
      match r with
      | '+' :: r2 => (false, r2)
      | '-' :: r2 => (true, r2)
      | r2 => (false, r2)
    let ed := r.takeWhile Char.isDigit
    let rest := r.dropWhile Char.isDigit
    if ed.isEmpty || !rest.isEmpty then none
    else
      let e := digitsToNat ed
      if neg then some (Rat.divInt m ((10 : Nat) ^ (fracLen + e) : Nat))
      else some (Rat.divInt (m * ((10 : Nat) ^ e : Nat)) ((10 : Nat) ^ fracLen : Nat))

/-- The five schema fields in declaration order. -/
def fieldNames : List String :=
  ["id", "timestamp", "temperature", "pressure", "mode"]

/-- The error entry pydantic emits for an absent required field. -/
def missingError (f : String) : ErrorItem :=
  ⟨[f], "missing", "Field required"⟩

/-- Validation of `id : UUID`: a string must parse as a UUID, any other JSON
value is a type error, absence is a missing-field error. -/
def checkId : Option JSON → Option ErrorItem
  | none => some (missingError "id")
  | some (JSON.str s) =>
    if isValidUUID s then none
    else some ⟨["id"], "uuid_parsing", "Input should be a valid UUID"⟩
  | some _ =>
    some ⟨["id"], "uuid_type", "UUID input should be a string, bytes or UUID object"⟩

/-- Validation of `timestamp : datetime`: a string must parse as an ISO-8601
date-time; a JSON number is accepted as a Unix timestamp (the finite range
speedate enforces on such numbers is abstracted away — no claim involves a
numeric timestamp); booleans and the remaining JSON shapes are type errors. -/
def checkTimestamp : Option JSON → Option ErrorItem
  | none => some (missingError "timestamp")
  | some (JSON.str s) =>
    if isValidDatetime s then none
    else some ⟨["timestamp"], "datetime_parsing", "Input should be a valid datetime"⟩
  | some (JSON.num _) => none
  | some _ =>
    some ⟨["timestamp"], "datetime_type", "Input should be a valid datetime"⟩

/-- Lax coercion of a JSON value to a float: numbers pass through, strings
are parsed as decimals, everything else (booleans included — pydantic v2
rejects bool for float) fails. -/
def coerceFloat : JSON → Option ℚ
  | JSON.num q => some q
  | JSON.str s => parseDecimal s
  | _ => none

/-- Validation of a `float` field carrying `Field(ge=lo, le=hi)`: coercion
first (failure kind depends on the input shape), then the `ge` bound, then
the `le` bound. -/
def checkFloat (f : String) (lo hi : ℚ) : Option JSON → Option ErrorItem
  | none => some (missingError f)
  | some v =>
    match v with
    | JSON.num q => rangeCheck f lo hi q
    | JSON.str s =>
      match parseDecimal s with
      | some q => rangeCheck f lo hi q
      | none =>
        some ⟨[f], "float_parsing",
          "Input should be a valid number, unable to parse string as a number"⟩
    | _ => some ⟨[f], "float_type", "Input should be a valid number"⟩
where
  /-- The `ge`/`le` constraint checks run after coercion, `ge` first. -/
  rangeCheck (f : String) (lo hi q : ℚ) : Option ErrorItem :=
    if q < lo then
      some ⟨[f], "greater_than_equal", "Input should be greater than or equal to the lower bound"⟩
    else if hi < q then
      some ⟨[f], "less_than_equal", "Input should be less than or equal to the upper bound"⟩
    else none

/-- Check for `temperature: float = Field(ge=-50, le=150)`. -/
def checkTemperature : Option JSON → Option ErrorItem :=
  checkFloat "temperature" (-50) 150

/-- Check for `pressure: float = Field(ge=800, le=1200)`. -/
def checkPressure : Option JSON → Option ErrorItem :=
  checkFloat "pressure" 800 1200

/-- The anchored alternation of the two literals in the `mode` regex accepts
exactly the two strings. -/
def matchesModeRegex (s : String) : Bool :=
  s == "AUTO" || s == "MANUAL"

/-- Validation of `mode : str` with the anchored AUTO-or-MANUAL regex:
pydantic v2 does not coerce non-strings to `str`, so any non-string input is
a type error; a string failing the regex is a constraint error. -/
def checkMode : Option JSON → Option ErrorItem
  | none => some (missingError "mode")
  | some (JSON.str s) =>
    if matchesModeRegex s then none
    else some ⟨["mode"], "string_pattern_mismatch", "String should match the mode regex"⟩
  | some _ => some ⟨["mode"], "string_type", "Input should be a valid string"⟩

/-- The single validation pass over the five fields, in declaration order;
each field contributes at most one error. -/
def fieldChecks (kvs : List (String × JSON)) : List (Option ErrorItem) :=
  [checkId (getField kvs "id"),
   checkTimestamp (getField kvs "timestamp"),
   checkTemperature (getField kvs "temperature"),
   checkPressure (getField kvs "pressure"),
   checkMode (getField kvs "mode")]

/-- Construction of `StructuralConfig` from the keyword dictionary: collect
every field error; the model is built (ok) exactly when no error arises.
Unknown keys are ignored, as in the default lenient pydantic configuration. -/
def validate (kvs : List (String × JSON)) : ValidationResult :=
  let errs := (fieldChecks kvs).filterMap id
  ⟨errs.isEmpty, errs⟩

/-- The function `main` of the runner, after reading stdin (the name `main`
is reserved in Lean).  The argument is the outcome of
`json.loads` (`none` = the raw text is not JSON, the decode error escapes).
A parsed non-object value makes the double-star unpacking raise `TypeError`,
also uncaught; the result `none` models abnormal termination with nothing
printed.  Only a parsed object reaches `StructuralConfig(**data)` and gets a
printed `ValidationResult`. -/
def runMain : Option JSON → Option ValidationResult
  | none => none
  | some (JSON.obj kvs) => some (validate kvs)
  | some _ => none

/-- Position of an error location in the field declaration order. -/
def fieldIndex (l : List String) : Nat :=
  fieldNames.indexOf (l.headD "")

/-! ### Basic lemmas about the validation pass -/

theorem filterMap_id_five (a b c d e : Option ErrorItem) :
    [a, b, c, d, e].filterMap id =
      a.toList ++ b.toList ++ c.toList ++ d.toList ++ e.toList := by
  cases a <;> cases b <;> cases c <;> cases d <;> cases e <;> rfl

theorem validate_errors (kvs : List (String × JSON)) :
    (validate kvs).errors =
      (checkId (getField kvs "id")).toList ++
      (checkTimestamp (getField kvs "timestamp")).toList ++
      (checkTemperature (getField kvs "temperature")).toList ++
      (checkPressure (getField kvs "pressure")).toList ++
      (checkMode (getField kvs "mode")).toList := by
  show (fieldChecks kvs).filterMap id = _
  rw [fieldChecks]
  exact filterMap_id_five _ _ _ _ _

theorem validate_ok_eq (kvs : List (String × JSON)) :
    (validate kvs).ok = (validate kvs).errors.isEmpty := rfl

theorem checkId_some {x : Option JSON} {e : ErrorItem} (h : checkId x = some e) :
    e.loc = ["id"] ∧ e.type ≠ "" ∧ e.msg ≠ "" := by
  rcases x with _ | (_ | b | q | s | el | kv) <;> simp only [checkId] at h
  all_goals first
    | · split at h
        · exact Option.noConfusion h
        · injection h with h; subst h; exact ⟨rfl, by decide, by decide⟩
    | · injection h with h; subst h; exact ⟨rfl, by decide, by decide⟩
theorem checkTimestamp_some {x : Option JSON} {e : ErrorItem}
    (h : checkTimestamp x = some e) :
    e.loc = ["timestamp"] ∧ e.type ≠ "" ∧ e.msg ≠ "" := by
  rcases x with _ | (_ | b | q | s | el | kv) <;> simp only [checkTimestamp] at h
  all_goals first
    | · exact Option.noConfusion h
    | · split at h
        · exact Option.noConfusion h
        · injection h with h; subst h; exact ⟨rfl, by simp [missingError], by simp [missingError]⟩
    | · injection h with h; subst h; exact ⟨rfl, by simp [missingError], by simp [missingError]⟩

theorem rangeCheck_some {f : String} {lo hi q : ℚ} {e : ErrorItem}
    (h : checkFloat.rangeCheck f lo hi q = some e) :
    e.loc = [f] ∧ e.type ≠ "" ∧ e.msg ≠ "" ∧
      (e.type = "greater_than_equal" ∨ e.type = "less_than_equal") := by
  unfold checkFloat.rangeCheck at h
  split at h
  · injection h with h; subst h
    exact ⟨rfl, by simp [missingError], by simp [missingError], Or.inl rfl⟩
  · split at h
    · injection h with h; subst h
      exact ⟨rfl, by simp [missingError], by simp [missingError], Or.inr rfl⟩
    · exact Option.noConfusion h

theorem checkFloat_some {f : String} {lo hi : ℚ} {x : Option JSON} {e : ErrorItem}
    (h : checkFloat f lo hi x = some e) :
    e.loc = [f] ∧ e.type ≠ "" ∧ e.msg ≠ "" := by
  rcases x with _ | (_ | b | q | s | el | kv) <;> simp only [checkFloat] at h
  · injection h with h; subst h; exact ⟨rfl, by simp [missingError], by simp [missingError]⟩
  · injection h with h; subst h; exact ⟨rfl, by simp [missingError], by simp [missingError]⟩
  · injection h with h; subst h; exact ⟨rfl, by simp [missingError], by simp [missingError]⟩
  · exact (rangeCheck_some h).imp id (fun p => ⟨p.1, p.2.1⟩)
  · rcases hp : parseDecimal s with _ | q
    · rw [hp] at h
      injection h with h; subst h; exact ⟨rfl, by simp [missingError], by simp [missingError]⟩
    · rw [hp] at h
      exact (rangeCheck_some h).imp id (fun p => ⟨p.1, p.2.1⟩)
  · injection h with h; subst h; exact ⟨rfl, by simp [missingError], by simp [missingError]⟩
  · injection h with h; subst h; exact ⟨rfl, by simp [missingError], by simp [missingError]⟩

theorem checkMode_some {x : Option JSON} {e : ErrorItem} (h : checkMode x = some e) :
    e.loc = ["mode"] ∧ e.type ≠ "" ∧ e.msg ≠ "" := by
  rcases x with _ | (_ | b | q | s | el | kv) <;> simp only [checkMode] at h
  all_goals first
    | · exact Option.noConfusion h
    | · split at h
        · exact Option.noConfusion h
        · injection h with h; subst h; exact ⟨rfl, by simp [missingError], by simp [missingError]⟩
    | · injection h with h; subst h; exact ⟨rfl, by simp [missingError], by simp [missingError]⟩

theorem checkId_valid {s : String} (h : isValidUUID s = true) :
    checkId (some (JSON.str s)) = none := by
  simp [checkId, h]

theorem checkTimestamp_valid {s : String} (h : isValidDatetime s = true) :
    checkTimestamp (some (JSON.str s)) = none := by
  simp [checkTimestamp, h]

theorem rangeCheck_valid {f : String} {lo hi q : ℚ} (h1 : lo ≤ q) (h2 : q ≤ hi) :
    checkFloat.rangeCheck f lo hi q = none := by
  unfold checkFloat.rangeCheck
  rw [if_neg (not_lt.mpr h1), if_neg (not_lt.mpr h2)]

theorem checkFloat_num_valid {f : String} {lo hi q : ℚ} (h1 : lo ≤ q) (h2 : q ≤ hi) :
    checkFloat f lo hi (some (JSON.num q)) = none := by
  simp only [checkFloat]
  exact rangeCheck_valid h1 h2

theorem checkMode_valid {s : String} (h : s = "AUTO" ∨ s = "MANUAL") :
    checkMode (some (JSON.str s)) = none := by
  rcases h with rfl | rfl <;> rfl

theorem mem_option_toList {α : Type} {o : Option α} {a : α} (h : a ∈ o.toList) :
    o = some a := by
  cases o <;> simp_all [Option.mem_toList]

/-- Each error a check can emit points at the declaration-order position of
its own field. -/
theorem fieldIndex_of_checks :
    (∀ {x e}, checkId x = some e → fieldIndex e.loc = 0) ∧
    (∀ {x e}, checkTimestamp x = some e → fieldIndex e.loc = 1) ∧
    (∀ {x e}, checkTemperature x = some e → fieldIndex e.loc = 2) ∧
    (∀ {x e}, checkPressure x = some e → fieldIndex e.loc = 3) ∧
    (∀ {x e}, checkMode x = some e → fieldIndex e.loc = 4) := by
  refine ⟨?_, ?_, ?_, ?_, ?_⟩ <;> intro x e h
  · rw [(checkId_some h).1]; rfl
  · rw [(checkTimestamp_some h).1]; rfl
  · rw [(checkFloat_some h).1]; rfl
  · rw [(checkFloat_some h).1]; rfl
  · rw [(checkMode_some h).1]; rfl

theorem countP_loc_le_one {l : List ErrorItem}
    (hp : l.Pairwise fun a b => fieldIndex a.loc < fieldIndex b.loc) (f : String) :
    l.countP (fun e => e.loc == [f]) ≤ 1 := by
  induction l with
  | nil => simp
  | cons a t ih =>
    rw [List.pairwise_cons] at hp
    obtain ⟨ha, ht⟩ := hp
    rw [List.countP_cons]
    by_cases hm : a.loc = [f]
    · have hz : t.countP (fun e => e.loc == [f]) = 0 := by
        rw [List.countP_eq_zero]
        intro e he hbe
        have he2 : e.loc = [f] := by simpa using hbe
        have hlt := ha e he
        rw [hm, he2] at hlt
        exact lt_irrefl _ hlt
      have hb : (a.loc == [f]) = true := by simpa using hm
      simp [hz, hb]
    · have hb : (a.loc == [f]) = false := by simpa using hm
      simpa [hb] using ih ht

theorem option_toList_pairwise {o : Option ErrorItem}
    {R : ErrorItem → ErrorItem → Prop} : o.toList.Pairwise R := by
  cases o <;> simp

theorem validate_errors_pairwise (kvs : List (String × JSON)) :
    ((validate kvs).errors).Pairwise fun a b => fieldIndex a.loc < fieldIndex b.loc := by
  have m1 : ∀ a ∈ (checkId (getField kvs "id")).toList, fieldIndex a.loc = 0 :=
    fun a ha => fieldIndex_of_checks.1 (mem_option_toList ha)
  have m2 : ∀ a ∈ (checkTimestamp (getField kvs "timestamp")).toList,
      fieldIndex a.loc = 1 :=
    fun a ha => fieldIndex_of_checks.2.1 (mem_option_toList ha)
  have m3 : ∀ a ∈ (checkTemperature (getField kvs "temperature")).toList,
      fieldIndex a.loc = 2 :=
    fun a ha => fieldIndex_of_checks.2.2.1 (mem_option_toList ha)
  have m4 : ∀ a ∈ (checkPressure (getField kvs "pressure")).toList,
      fieldIndex a.loc = 3 :=
    fun a ha => fieldIndex_of_checks.2.2.2.1 (mem_option_toList ha)
  have m5 : ∀ a ∈ (checkMode (getField kvs "mode")).toList, fieldIndex a.loc = 4 :=
    fun a ha => fieldIndex_of_checks.2.2.2.2 (mem_option_toList ha)
  rw [validate_errors, List.append_assoc, List.append_assoc, List.append_assoc]
  refine List.pairwise_append.mpr ⟨option_toList_pairwise, ?_, ?_⟩
  · refine List.pairwise_append.mpr ⟨option_toList_pairwise, ?_, ?_⟩
    · refine List.pairwise_append.mpr ⟨option_toList_pairwise, ?_, ?_⟩
      · refine List.pairwise_append.mpr
          ⟨option_toList_pairwise, option_toList_pairwise, ?_⟩
        intro a ha b hb
        rw [m4 a ha, m5 b hb]
        omega
      · intro a ha b hb
        rw [m3 a ha]
        rcases List.mem_append.mp hb with hb | hb
        · rw [m4 b hb]; omega
        · rw [m5 b hb]; omega
    · intro a ha b hb
      rw [m2 a ha]
      rcases List.mem_append.mp hb with hb | hb
      · rw [m3 b hb]; omega
      · rcases List.mem_append.mp hb with hb | hb
        · rw [m4 b hb]; omega
        · rw [m5 b hb]; omega
  · intro a ha b hb
    rw [m1 a ha]
    rcases List.mem_append.mp hb with hb | hb
    · rw [m2 b hb]; omega
    · rcases List.mem_append.mp hb with hb | hb
      · rw [m3 b hb]; omega
      · rcases List.mem_append.mp hb with hb | hb
        · rw [m4 b hb]; omega
        · rw [m5 b hb]; omega

theorem mem_errors_of_checkTemperature {kvs : List (String × JSON)} {e : ErrorItem}
    (h : checkTemperature (getField kvs "temperature") = some e) :
    e ∈ (validate kvs).errors := by
  rw [validate_errors]
  simp [h]

theorem mem_errors_of_checkPressure {kvs : List (String × JSON)} {e : ErrorItem}
    (h : checkPressure (getField kvs "pressure") = some e) :
    e ∈ (validate kvs).errors := by
  rw [validate_errors]
  simp [h]

theorem mem_errors_of_checkMode {kvs : List (String × JSON)} {e : ErrorItem}
    (h : checkMode (getField kvs "mode") = some e) :
    e ∈ (validate kvs).errors := by
  rw [validate_errors]
  simp [h]

/-! ### Sample documents used by the witnesses -/

/-- The valid document of scenario 1 (temperature written as the integer 20
so that every side condition evaluates inside the kernel). -/
def docValid : List (String × JSON) :=
  [("id", JSON.str "123e4567-e89b-12d3-a456-426614174000"),
   ("timestamp", JSON.str "2024-01-01T00:00:00Z"),
   ("temperature", JSON.num 20),
   ("pressure", JSON.num 1010),
   ("mode", JSON.str "AUTO")]

/-- A document whose temperature is a boolean and whose mode is a number:
both fields fail coercion, so only type errors can be reported for them. -/
def docTypeErrs : List (String × JSON) :=
  [("temperature", JSON.bool true),
   ("pressure", JSON.null),
   ("mode", JSON.num 3)]

/-! ### The claims -/

/-- C1: a JSON object carrying all five required fields — a valid UUID
string, a parsable date-time string, a temperature in [-50, 150], a
pressure in [800, 1200] and a mode equal to AUTO or MANUAL — validates to
ok true with an empty error list. -/
theorem spec_c1 (kvs : List (String × JSON)) (idv ts m : String) (t p : ℚ)
    (hid : getField kvs "id" = some (JSON.str idv))
    (hidOk : isValidUUID idv = true)
    (hts : getField kvs "timestamp" = some (JSON.str ts))
    (htsOk : isValidDatetime ts = true)
    (ht : getField kvs "temperature" = some (JSON.num t))
    (ht1 : -50 ≤ t) (ht2 : t ≤ 150)
    (hp : getField kvs "pressure" = some (JSON.num p))
    (hp1 : 800 ≤ p) (hp2 : p ≤ 1200)
    (hm : getField kvs "mode" = some (JSON.str m))
    (hmOk : m = "AUTO" ∨ m = "MANUAL") :
    validate kvs = ⟨true, []⟩ := by
  have e1 : checkId (getField kvs "id") = none := by
    rw [hid]; exact checkId_valid hidOk
  have e2 : checkTimestamp (getField kvs "timestamp") = none := by
    rw [hts]; exact checkTimestamp_valid htsOk
  have e3 : checkTemperature (getField kvs "temperature") = none := by
    rw [ht]; exact checkFloat_num_valid ht1 ht2
  have e4 : checkPressure (getField kvs "pressure") = none := by
    rw [hp]; exact checkFloat_num_valid hp1 hp2
  have e5 : checkMode (getField kvs "mode") = none := by
    rw [hm]; exact checkMode_valid hmOk
  have hfc : fieldChecks kvs = [none, none, none, none, none] := by
    rw [fieldChecks, e1, e2, e3, e4, e5]
  simp [validate, hfc]

theorem spec_c1_witness :
    getField docValid "id" = some (JSON.str "123e4567-e89b-12d3-a456-426614174000") ∧
    validate docValid = ⟨true, []⟩ :=
  ⟨rfl,
   spec_c1 docValid "123e4567-e89b-12d3-a456-426614174000" "2024-01-01T00:00:00Z"
     "AUTO" 20 1010 rfl (by decide) rfl (by decide) rfl (by decide) (by decide)
     rfl (by decide) (by decide) rfl (Or.inl rfl)⟩

/-- C2: validation is a single pass that collects every field violation
(`filterMap` over the per-field checks), the errors appear in field
declaration order with at most one error per field, and when a value cannot
be coerced to the declared type the reported error is the type error, never
the range or pattern error. -/
theorem spec_c2 (kvs : List (String × JSON)) :
    (validate kvs).errors = (fieldChecks kvs).filterMap id ∧
    ((validate kvs).errors).Pairwise
      (fun a b => fieldIndex a.loc < fieldIndex b.loc) ∧
    (∀ f : String, ((validate kvs).errors).countP (fun e => e.loc == [f]) ≤ 1) ∧
    (∀ v : JSON, getField kvs "temperature" = some v → coerceFloat v = none →
      ∃ e ∈ (validate kvs).errors, e.loc = ["temperature"] ∧
        (e.type = "float_type" ∨ e.type = "float_parsing")) ∧
    (∀ v : JSON, getField kvs "pressure" = some v → coerceFloat v = none →
      ∃ e ∈ (validate kvs).errors, e.loc = ["pressure"] ∧
        (e.type = "float_type" ∨ e.type = "float_parsing")) ∧
    (∀ v : JSON, getField kvs "mode" = some v → (∀ s, v ≠ JSON.str s) →
      ∃ e ∈ (validate kvs).errors, e.loc = ["mode"] ∧ e.type = "string_type") := by
  refine ⟨rfl, validate_errors_pairwise kvs, ?_, ?_, ?_, ?_⟩
  · exact fun f => countP_loc_le_one (validate_errors_pairwise kvs) f
  · intro v hv hc
    rcases v with _ | b | q | s | el | kv2
    case num => simp [coerceFloat] at hc
    case str =>
      have hps : parseDecimal s = none := by simpa [coerceFloat] using hc
      refine ⟨⟨["temperature"], "float_parsing",
        "Input should be a valid number, unable to parse string as a number"⟩,
        mem_errors_of_checkTemperature ?_, rfl, Or.inr rfl⟩
      rw [hv]
      show checkFloat _ _ _ _ = _
      simp only [checkFloat, hps]
    all_goals exact ⟨⟨["temperature"], "float_type", "Input should be a valid number"⟩,
      mem_errors_of_checkTemperature (by rw [hv]; rfl), rfl, Or.inl rfl⟩
  · intro v hv hc
    rcases v with _ | b | q | s | el | kv2
    case num => simp [coerceFloat] at hc
    case str =>
      have hps : parseDecimal s = none := by simpa [coerceFloat] using hc
      refine ⟨⟨["pressure"], "float_parsing",
        "Input should be a valid number, unable to parse string as a number"⟩,
        mem_errors_of_checkPressure ?_, rfl, Or.inr rfl⟩
      rw [hv]
      show checkFloat _ _ _ _ = _
      simp only [checkFloat, hps]
    all_goals exact ⟨⟨["pressure"], "float_type", "Input should be a valid number"⟩,
      mem_errors_of_checkPressure (by rw [hv]; rfl), rfl, Or.inl rfl⟩
  · intro v hv hs
    rcases v with _ | b | q | s | el | kv2
    case str => exact absurd rfl (hs s)
    all_goals exact ⟨⟨["mode"], "string_type", "Input should be a valid string"⟩,
      mem_errors_of_checkMode (by rw [hv]; rfl), rfl, rfl⟩

theorem spec_c2_witness :
    (∃ e ∈ (validate docTypeErrs).errors, e.loc = ["temperature"] ∧
      (e.type = "float_type" ∨ e.type = "float_parsing")) ∧
    (∃ e ∈ (validate docTypeErrs).errors, e.loc = ["mode"] ∧
      e.type = "string_type") :=
  ⟨(spec_c2 docTypeErrs).2.2.2.1 (JSON.bool true) rfl rfl,
   (spec_c2 docTypeErrs).2.2.2.2.2 (JSON.num 3) rfl
     (fun _ h => JSON.noConfusion h)⟩

/-- C3 (amended): unparsable input kills the process, and so does
well-formed JSON whose top-level value is not an object (the double-star
unpacking raises `TypeError`); only a parsed JSON object yields a printed
`ValidationResult`. -/
theorem spec_c3 :
    runMain none = none ∧
    (∀ kvs, runMain (some (JSON.obj kvs)) = some (validate kvs)) ∧
    (∀ j : JSON, (∀ kvs, j ≠ JSON.obj kvs) → runMain (some j) = none) := by
  refine ⟨rfl, fun kvs => rfl, ?_⟩
  intro j hj
  rcases j with _ | b | q | s | el | kvs
  case obj => exact absurd rfl (hj kvs)
  all_goals rfl

theorem spec_c3_witness : runMain (some (JSON.str "not an object")) = none :=
  spec_c3.2.2 (JSON.str "not an object") (fun _ h => JSON.noConfusion h)

/-- C3, counterexample to the claim as stated: the input text of a JSON
array parses as JSON, yet the program terminates abnormally and prints no
result. -/
theorem spec_c3_counterexample :
    runMain (some (JSON.arr [JSON.num 1, JSON.num 2, JSON.num 3])) = none ∧
    ¬∃ r, runMain (some (JSON.arr [JSON.num 1, JSON.num 2, JSON.num 3])) = some r :=
  ⟨rfl, by rintro ⟨r, hr⟩; exact Option.noConfusion hr⟩

/-- C10: a parsed JSON value that is not an object makes the double-star
unpacking raise an uncaught `TypeError` — no `{ok, errors}` report is
printed; the structured report is produced exactly for JSON objects. -/
theorem spec_c10 (j : JSON) (hj : ∀ kvs, j ≠ JSON.obj kvs) :
    runMain (some j) = none ∧
    ∀ kvs, runMain (some (JSON.obj kvs)) = some (validate kvs) := by
  constructor
  · rcases j with _ | b | q | s | el | kvs
    case obj => exact absurd rfl (hj kvs)
    all_goals rfl
  · exact fun kvs => rfl

theorem spec_c10_witness :
    runMain (some (JSON.num 3)) = none ∧
    ∀ kvs, runMain (some (JSON.obj kvs)) = some (validate kvs) :=
  spec_c10 (JSON.num 3) (fun _ h => JSON.noConfusion h)

/-- The mode check succeeds exactly on the two literal strings. -/
theorem checkMode_none_iff {v : JSON} :
    checkMode (some v) = none ↔ (v = JSON.str "AUTO" ∨ v = JSON.str "MANUAL") := by
  rcases v with _ | b | q | s | el | kv <;> simp [checkMode]
  constructor
  · intro hnone
    by_cases hm : matchesModeRegex s
    · simpa [matchesModeRegex] using hm
    · simp [hm] at hnone
  · intro hs
    have hm : matchesModeRegex s = true := by
      rcases hs with rfl | rfl <;> rfl
    simp [hm]

/-- An error located at `mode` can only have been produced by the mode
check. -/
theorem mode_error_source {kvs : List (String × JSON)} {e : ErrorItem}
    (he : e ∈ (validate kvs).errors) (hl : e.loc = ["mode"]) :
    checkMode (getField kvs "mode") = some e := by
  rw [validate_errors] at he
  simp only [List.mem_append] at he
  rcases he with ((((h1 | h2) | h3) | h4) | h5)
  · have hx := (checkId_some (mem_option_toList h1)).1
    rw [hl] at hx
    exact absurd hx (by decide)
  · have hx := (checkTimestamp_some (mem_option_toList h2)).1
    rw [hl] at hx
    exact absurd hx (by decide)
  · have hx := (checkFloat_some (mem_option_toList h3)).1
    rw [hl] at hx
    exact absurd hx (by decide)
  · have hx := (checkFloat_some (mem_option_toList h4)).1
    rw [hl] at hx
    exact absurd hx (by decide)
  · exact mem_option_toList h5

/-- C4: with the mode field present, validation reports an error for mode
exactly when its value is not the string AUTO and not the string MANUAL;
matching is exact and case-sensitive, and non-strings always fail. -/
theorem spec_c4 (kvs : List (String × JSON)) (v : JSON)
    (hv : getField kvs "mode" = some v) :
    ((∃ e ∈ (validate kvs).errors, e.loc = ["mode"]) ↔
      ¬(v = JSON.str "AUTO" ∨ v = JSON.str "MANUAL")) ∧
    (checkMode (some v) = none ↔ (v = JSON.str "AUTO" ∨ v = JSON.str "MANUAL")) := by
  refine ⟨⟨?_, ?_⟩, checkMode_none_iff⟩
  · rintro ⟨e, he, hl⟩ hvalid
    have hnone : checkMode (some v) = none := checkMode_none_iff.mpr hvalid
    have hsome := mode_error_source he hl
    rw [hv, hnone] at hsome
    exact Option.noConfusion hsome
  · intro hinvalid
    rcases hk : checkMode (some v) with _ | e
    · exact absurd (checkMode_none_iff.mp hk) hinvalid
    · exact ⟨e, mem_errors_of_checkMode (by rw [hv, hk]), (checkMode_some hk).1⟩

theorem spec_c4_witness :
    ∃ e ∈ (validate [("mode", JSON.str "auto")]).errors, e.loc = ["mode"] :=
  ((spec_c4 [("mode", JSON.str "auto")] (JSON.str "auto") rfl).1).mpr (by simp)

/-- A numeric field value passes the float check exactly when it lies in
the closed interval — both bounds inclusive. -/
theorem checkFloat_num_none_iff {f : String} {lo hi q : ℚ} :
    checkFloat f lo hi (some (JSON.num q)) = none ↔ (lo ≤ q ∧ q ≤ hi) := by
  show checkFloat.rangeCheck f lo hi q = none ↔ _
  unfold checkFloat.rangeCheck
  split
  · rename_i h1
    simp [not_le.mpr h1]
  · rename_i h1
    split
    · rename_i h2
      simp [not_le.mpr h2]
    · rename_i h2
      simp [not_lt.mp h1, not_lt.mp h2]

/-- An error located at `temperature` can only have been produced by the
temperature check. -/
theorem temperature_error_source {kvs : List (String × JSON)} {e : ErrorItem}
    (he : e ∈ (validate kvs).errors) (hl : e.loc = ["temperature"]) :
    checkTemperature (getField kvs "temperature") = some e := by
  rw [validate_errors] at he
  simp only [List.mem_append] at he
  rcases he with ((((h1 | h2) | h3) | h4) | h5)
  · have hx := (checkId_some (mem_option_toList h1)).1
    rw [hl] at hx
    exact absurd hx (by decide)
  · have hx := (checkTimestamp_some (mem_option_toList h2)).1
    rw [hl] at hx
    exact absurd hx (by decide)
  · exact mem_option_toList h3
  · have hx := (checkFloat_some (mem_option_toList h4)).1
    rw [hl] at hx
    exact absurd hx (by decide)
  · have hx := (checkMode_some (mem_option_toList h5)).1
    rw [hl] at hx
    exact absurd hx (by decide)

/-- An error located at `pressure` can only have been produced by the
pressure check. -/
theorem pressure_error_source {kvs : List (String × JSON)} {e : ErrorItem}
    (he : e ∈ (validate kvs).errors) (hl : e.loc = ["pressure"]) :
    checkPressure (getField kvs "pressure") = some e := by
  rw [validate_errors] at he
  simp only [List.mem_append] at he
  rcases he with ((((h1 | h2) | h3) | h4) | h5)
  · have hx := (checkId_some (mem_option_toList h1)).1
    rw [hl] at hx
    exact absurd hx (by decide)
  · have hx := (checkTimestamp_some (mem_option_toList h2)).1
    rw [hl] at hx
    exact absurd hx (by decide)
  · have hx := (checkFloat_some (mem_option_toList h3)).1
    rw [hl] at hx
    exact absurd hx (by decide)
  · exact mem_option_toList h4
  · have hx := (checkMode_some (mem_option_toList h5)).1
    rw [hl] at hx
    exact absurd hx (by decide)

/-- C5: for numeric field values the range bounds are inclusive — a
temperature error is reported exactly when the value leaves [-50, 150] and
a pressure error exactly when the value leaves [800, 1200]. -/
theorem spec_c5 (kvs : List (String × JSON)) (qt qp : ℚ)
    (ht : getField kvs "temperature" = some (JSON.num qt))
    (hp : getField kvs "pressure" = some (JSON.num qp)) :
    ((∃ e ∈ (validate kvs).errors, e.loc = ["temperature"]) ↔
      ¬(-50 ≤ qt ∧ qt ≤ 150)) ∧
    ((∃ e ∈ (validate kvs).errors, e.loc = ["pressure"]) ↔
      ¬(800 ≤ qp ∧ qp ≤ 1200)) := by
  constructor
  · constructor
    · rintro ⟨e, he, hl⟩ hrange
      have hnone : checkTemperature (some (JSON.num qt)) = none :=
        checkFloat_num_none_iff.mpr hrange
      have hsome := temperature_error_source he hl
      rw [ht, hnone] at hsome
      exact Option.noConfusion hsome
    · intro hrange
      rcases hk : checkTemperature (some (JSON.num qt)) with _ | e
      · exact absurd (checkFloat_num_none_iff.mp hk) hrange
      · exact ⟨e, mem_errors_of_checkTemperature (by rw [ht, hk]),
          (checkFloat_some hk).1⟩
  · constructor
    · rintro ⟨e, he, hl⟩ hrange
      have hnone : checkPressure (some (JSON.num qp)) = none :=
        checkFloat_num_none_iff.mpr hrange
      have hsome := pressure_error_source he hl
      rw [hp, hnone] at hsome
      exact Option.noConfusion hsome
    · intro hrange
      rcases hk : checkPressure (some (JSON.num qp)) with _ | e
      · exact absurd (checkFloat_num_none_iff.mp hk) hrange
      · exact ⟨e, mem_errors_of_checkPressure (by rw [hp, hk]),
          (checkFloat_some hk).1⟩

/-- The boundary document: temperature at the lower bound −50 exactly,
pressure 1200.001 just above the upper bound. -/
def docBoundary : List (String × JSON) :=
  [("temperature", JSON.num (-50)),
   ("pressure", JSON.num ⟨1200001, 1000, by decide, by decide⟩)]

theorem spec_c5_witness :
    ¬(∃ e ∈ (validate docBoundary).errors, e.loc = ["temperature"]) ∧
    (∃ e ∈ (validate docBoundary).errors, e.loc = ["pressure"]) :=
  ⟨fun hex =>
    ((spec_c5 docBoundary (-50) ⟨1200001, 1000, by decide, by decide⟩
      rfl rfl).1.mp hex) (by decide),
   ((spec_c5 docBoundary (-50) ⟨1200001, 1000, by decide, by decide⟩
      rfl rfl).2.mpr (by decide))⟩

/-- The printed ok flag is false exactly when some error was collected. -/
theorem validate_ok_false_iff (kvs : List (String × JSON)) :
    (validate kvs).ok = false ↔ (validate kvs).errors ≠ [] := by
  rw [validate_ok_eq]
  cases h : (validate kvs).errors <;> simp [h]

/-- A block of the error list whose location differs from the filtered one
contributes nothing to the filtered list. -/
theorem filter_loc_block_ne {o : Option ErrorItem} {g : List String} {f : String}
    (hloc : ∀ e, o = some e → e.loc = g) (hne : g ≠ [f]) :
    o.toList.filter (fun e => e.loc == [f]) = [] := by
  cases o with
  | none => rfl
  | some e =>
    have hg : e.loc = g := hloc e rfl
    have hb : (e.loc == [f]) = false := by simp [hg, hne]
    simp [hb]

theorem checkTemperature_loc {x : Option JSON} {e : ErrorItem}
    (h : checkTemperature x = some e) : e.loc = ["temperature"] :=
  (checkFloat_some h).1

theorem checkPressure_loc {x : Option JSON} {e : ErrorItem}
    (h : checkPressure x = some e) : e.loc = ["pressure"] :=
  (checkFloat_some h).1

/-- C6: an absent required field produces exactly one error for that field,
of kind missing, and makes ok false; the empty object produces the five
missing-field errors, one per field, in declaration order. -/
theorem spec_c6 :
    (∀ (kvs : List (String × JSON)) (f : String), f ∈ fieldNames →
      getField kvs f = none →
      (validate kvs).ok = false ∧
      ((validate kvs).errors).filter (fun e => e.loc == [f]) = [missingError f]) ∧
    validate [] = ⟨false, fieldNames.map missingError⟩ := by
  constructor
  · intro kvs f hf hnone
    have hmem : f = "id" ∨ f = "timestamp" ∨ f = "temperature" ∨
        f = "pressure" ∨ f = "mode" := by
      simpa [fieldNames] using hf
    rcases hmem with rfl | rfl | rfl | rfl | rfl
    · have hch : checkId (getField kvs "id") = some (missingError "id") := by
        rw [hnone]; rfl
      refine ⟨?_, ?_⟩
      · rw [validate_ok_false_iff]
        intro hempty
        have hm : missingError "id" ∈ (validate kvs).errors := by
          rw [validate_errors]; simp [hch]
        rw [hempty] at hm
        exact absurd hm (List.not_mem_nil _)
      · rw [validate_errors]
        simp only [List.filter_append]
        rw [hch,
          filter_loc_block_ne (fun e h => checkTimestamp_some h |>.1) (by decide),
          filter_loc_block_ne (fun e h => checkTemperature_loc h) (by decide),
          filter_loc_block_ne (fun e h => checkPressure_loc h) (by decide),
          filter_loc_block_ne (fun e h => checkMode_some h |>.1) (by decide)]
        simp [missingError]
    · have hch : checkTimestamp (getField kvs "timestamp") =
          some (missingError "timestamp") := by
        rw [hnone]; rfl
      refine ⟨?_, ?_⟩
      · rw [validate_ok_false_iff]
        intro hempty
        have hm : missingError "timestamp" ∈ (validate kvs).errors := by
          rw [validate_errors]; simp [hch]
        rw [hempty] at hm
        exact absurd hm (List.not_mem_nil _)
      · rw [validate_errors]
        simp only [List.filter_append]
        rw [hch,
          filter_loc_block_ne (fun e h => checkId_some h |>.1) (by decide),
          filter_loc_block_ne (fun e h => checkTemperature_loc h) (by decide),
          filter_loc_block_ne (fun e h => checkPressure_loc h) (by decide),
          filter_loc_block_ne (fun e h => checkMode_some h |>.1) (by decide)]
        simp [missingError]
    · have hch : checkTemperature (getField kvs "temperature") =
          some (missingError "temperature") := by
        rw [hnone]; rfl
      refine ⟨?_, ?_⟩
      · rw [validate_ok_false_iff]
        intro hempty
        have hm : missingError "temperature" ∈ (validate kvs).errors := by
          rw [validate_errors]; simp [hch]
        rw [hempty] at hm
        exact absurd hm (List.not_mem_nil _)
      · rw [validate_errors]
        simp only [List.filter_append]
        rw [hch,
          filter_loc_block_ne (fun e h => checkId_some h |>.1) (by decide),
          filter_loc_block_ne (fun e h => checkTimestamp_some h |>.1) (by decide),
          filter_loc_block_ne (fun e h => checkPressure_loc h) (by decide),
          filter_loc_block_ne (fun e h => checkMode_some h |>.1) (by decide)]
        simp [missingError]
    · have hch : checkPressure (getField kvs "pressure") =
          some (missingError "pressure") := by
        rw [hnone]; rfl
      refine ⟨?_, ?_⟩
      · rw [validate_ok_false_iff]
        intro hempty
        have hm : missingError "pressure" ∈ (validate kvs).errors := by
          rw [validate_errors]; simp [hch]
        rw [hempty] at hm
        exact absurd hm (List.not_mem_nil _)
      · rw [validate_errors]
        simp only [List.filter_append]
        rw [hch,
          filter_loc_block_ne (fun e h => checkId_some h |>.1) (by decide),
          filter_loc_block_ne (fun e h => checkTimestamp_some h |>.1) (by decide),
          filter_loc_block_ne (fun e h => checkTemperature_loc h) (by decide),
          filter_loc_block_ne (fun e h => checkMode_some h |>.1) (by decide)]
        simp [missingError]
    · have hch : checkMode (getField kvs "mode") = some (missingError "mode") := by
        rw [hnone]; rfl
      refine ⟨?_, ?_⟩
      · rw [validate_ok_false_iff]
        intro hempty
        have hm : missingError "mode" ∈ (validate kvs).errors := by
          rw [validate_errors]; simp [hch]
        rw [hempty] at hm
        exact absurd hm (List.not_mem_nil _)
      · rw [validate_errors]
        simp only [List.filter_append]
        rw [hch,
          filter_loc_block_ne (fun e h => checkId_some h |>.1) (by decide),
          filter_loc_block_ne (fun e h => checkTimestamp_some h |>.1) (by decide),
          filter_loc_block_ne (fun e h => checkTemperature_loc h) (by decide),
          filter_loc_block_ne (fun e h => checkPressure_loc h) (by decide)]
        simp [missingError]
  · decide

theorem spec_c6_witness :
    (validate []).ok = false ∧
    ((validate []).errors).filter (fun e => e.loc == ["id"]) = [missingError "id"] :=
  spec_c6.1 [] "id" (by decide) rfl

/-- Association lookup distributes over concatenation. -/
theorem lookup_append {α β : Type} [BEq α] (l1 l2 : List (α × β)) (k : α) :
    (l1 ++ l2).lookup k = ((l1.lookup k).orElse (fun _ => l2.lookup k)) := by
  induction l1 with
  | nil => simp [List.lookup]
  | cons a t ih =>
    rcases a with ⟨a1, a2⟩
    by_cases hk : k == a1
    · simp [List.lookup, hk]
    · simp only [List.cons_append, List.lookup, Bool.not_eq_true] at *
      rw [hk]
      simpa using ih

/-- The validation result depends on the parsed object only through the
five schema fields. -/
theorem validate_ext {kvs kvs2 : List (String × JSON)}
    (h : ∀ f ∈ fieldNames, getField kvs f = getField kvs2 f) :
    validate kvs = validate kvs2 := by
  have hfc : fieldChecks kvs = fieldChecks kvs2 := by
    rw [fieldChecks, fieldChecks, h "id" (by decide), h "timestamp" (by decide),
      h "temperature" (by decide), h "pressure" (by decide), h "mode" (by decide)]
  simp only [validate, hfc]

/-- C7: keys outside the schema are ignored — the result is a function of
the five schema fields alone, and an extra binding under a non-schema key
leaves the result unchanged. -/
theorem spec_c7 :
    (∀ kvs kvs2 : List (String × JSON),
      (∀ f ∈ fieldNames, getField kvs f = getField kvs2 f) →
      validate kvs = validate kvs2) ∧
    (∀ (kvs : List (String × JSON)) (k : String) (v : JSON), k ∉ fieldNames →
      validate ((k, v) :: kvs) = validate kvs) := by
  refine ⟨fun kvs kvs2 h => validate_ext h, ?_⟩
  intro kvs k v hk
  refine validate_ext (fun f hf => ?_)
  have hfk : (f == k) = false := by
    have hne : f ≠ k := fun h => hk (h ▸ hf)
    simpa using hne
  rw [getField, getField, List.reverse_cons, lookup_append]
  cases hlk : kvs.reverse.lookup f with
  | some x => rfl
  | none => simp [List.lookup, hfk]

theorem spec_c7_witness :
    validate (("extra", JSON.null) :: docValid) = validate docValid :=
  spec_c7.2 docValid "extra" JSON.null (by decide)

/-- C8: whenever ok is false the error list is nonempty (the printed errors
are exactly the collected ones) and every error descriptor carries a
singleton field path naming a schema field, a nonempty machine-readable
kind and a nonempty human-readable message. -/
theorem spec_c8 (kvs : List (String × JSON)) (h : (validate kvs).ok = false) :
    (validate kvs).errors ≠ [] ∧
    ∀ e ∈ (validate kvs).errors,
      (∃ f ∈ fieldNames, e.loc = [f]) ∧ e.type ≠ "" ∧ e.msg ≠ "" := by
  refine ⟨(validate_ok_false_iff kvs).mp h, ?_⟩
  intro e he
  rw [validate_errors] at he
  simp only [List.mem_append] at he
  rcases he with ((((h1 | h2) | h3) | h4) | h5)
  · have hx := checkId_some (mem_option_toList h1)
    exact ⟨⟨"id", by decide, hx.1⟩, hx.2⟩
  · have hx := checkTimestamp_some (mem_option_toList h2)
    exact ⟨⟨"timestamp", by decide, hx.1⟩, hx.2⟩
  · have hx := checkFloat_some (mem_option_toList h3)
    exact ⟨⟨"temperature", by decide, hx.1⟩, hx.2⟩
  · have hx := checkFloat_some (mem_option_toList h4)
    exact ⟨⟨"pressure", by decide, hx.1⟩, hx.2⟩
  · have hx := checkMode_some (mem_option_toList h5)
    exact ⟨⟨"mode", by decide, hx.1⟩, hx.2⟩

theorem spec_c8_witness :
    (validate []).errors ≠ [] ∧
    ∀ e ∈ (validate []).errors,
      (∃ f ∈ fieldNames, e.loc = [f]) ∧ e.type ≠ "" ∧ e.msg ≠ "" :=
  spec_c8 [] rfl

/-- C9: the program is a pure function of its parsed input — rerunning
`runMain` or `validate` on the identical input produces the identical
result; the embedding carries no state that could make two runs differ. -/
theorem spec_c9 :
    (∀ p : Option JSON, runMain p = runMain p) ∧
    (∀ kvs : List (String × JSON), validate kvs = validate kvs) :=
  ⟨fun _ => rfl, fun _ => rfl⟩
